import Mathlib

/-!
Verification development for the `gigawattio/go-commons` repository.

The definitions below are a shallow embedding of the Go sources:

* `Merge`               — `pkg/errorlib` `Merge` (src/unnamed/part_000, lines 34-60).
* the connection rotator / `GormRepositoryDriver` operations
                        — `pkg/driver/repository` (src/unnamed/part_006).
* `DbFnWithRetry`, `IsRetriableDbError`
                        — `pkg/driver/repository` (src/unnamed/part_007).

Go errors are modelled as `Option String` (the error message; `none` = nil
error).  Machine ints (`int`, `int64`) are modelled as `Int`.  The external
collaborators (the gorm library and the database backend) are passed in as
oracle functions so that theorems quantify over every possible backend
behaviour.
-/

/-- Go `strings.HasPrefix` (byte-wise prefix test, modelled on the
character list underlying the string). -/
def hasPrefixStr (s p : String) : Bool := List.isPrefixOf p.data s.data

/-- Go `strings.HasSuffix`. -/
def hasSuffixStr (s p : String) : Bool := List.isSuffixOf p.data s.data

/-- Go `strings.Contains`: `sub` occurs as a contiguous substring of `s`. -/
def strContains (s sub : String) : Bool :=
  (s.data.tails).any (fun t => List.isPrefixOf sub.data t)

/-- The buffer-and-counter loop inside `errorlib.Merge`
(src/unnamed/part_000 lines 41-52): skip nil errors, write `", "` before
every non-nil message except the first, count non-nil errors. -/
def mergeLoop : List (Option String) → String → Nat → String × Nat
  | [], buf, n => (buf, n)
  | none :: rest, buf, n => mergeLoop rest buf n
  | some e :: rest, buf, n =>
      mergeLoop rest (if 0 < n then (buf ++ ", ") ++ e else buf ++ e) (n + 1)

/-- Embeds `errorlib.Merge` (src/unnamed/part_000 lines 34-60): merge a slice of
errors into a single error.  `fmt.Sprintf("%v errors: %s", n, buf)` is
modelled as decimal `toString n` followed by the literal text. -/
def Merge (errs : List (Option String)) : Option String :=
  match errs with
  | [] => none
  | [e] => e
  | _ =>
    let r := mergeLoop errs "" 0
    if r.2 = 0 then none
    else if r.2 = 1 then some r.1
    else some ((toString r.2 ++ " errors: ") ++ r.1)

/-- Tail of a comma-joined rendering: `", " ++ a` for each element. -/
def commaTail : List String → String
  | [] => ""
  | a :: rest => (", " ++ a) ++ commaTail rest

/-- Messages joined by `", "` (the joined form produced by `Merge`'s
buffer for two or more messages). -/
def joinComma : List String → String
  | [] => ""
  | [a] => a
  | a :: b :: rest => (a ++ ", ") ++ joinComma (b :: rest)

/-!  ## Connection rotator (src/unnamed/part_006 lines 23-97)

The Go driver holds a `container/ring.Ring` of connection strings, a lazily
created `*gorm.DB`, and a mutex.  Per the cyclic structure's semantics we
model the ring as the fixed list of descriptors plus a cursor taken modulo
the list length.  `Conn` is the type of live connection handles
(`*gorm.DB`); connecting (`DbConnect`) is an oracle
`connect : String → Except String Conn` returning either an error message
or a handle.  Operations are state-passing functions on the driver. -/

structure GormRepositoryDriver (Conn : Type) where
  connectionStrings : List String
  cursor : Nat
  currentDb : Option Conn
deriving Repr, DecidableEq

/-- Embeds `NewGormRepositoryDriver` (part_006 lines 31-42): the ring is filled by
inserting every string and advancing once per insertion, which leaves the
cursor back at the first descriptor; no connection is opened yet. -/
def NewGormRepositoryDriver (Conn : Type) (connectionStrings : List String) :
    GormRepositoryDriver Conn :=
  { connectionStrings := connectionStrings, cursor := 0, currentDb := none }

/-- The descriptor the ring cursor currently points at
(`driver.connectionStrings.Value`). -/
def currentDescriptor (driver : GormRepositoryDriver Conn) : String :=
  driver.connectionStrings.getD (driver.cursor % driver.connectionStrings.length) ""

/-- Advance the ring one position (`driver.connectionStrings.Next()`). -/
def ringNext (driver : GormRepositoryDriver Conn) : GormRepositoryDriver Conn :=
  { driver with cursor := (driver.cursor + 1) % driver.connectionStrings.length }

/-- Embeds `(driver *GormRepositoryDriver) db()` (part_006 lines 56-69): return the
live connection if one exists; otherwise connect using the descriptor at
the cursor, advancing the cursor exactly once whether or not the connect
attempt succeeds (the `Next()` call precedes the error check). -/
def GormRepositoryDriver.db (connect : String → Except String Conn)
    (driver : GormRepositoryDriver Conn) :
    Except String Conn × GormRepositoryDriver Conn :=
  match driver.currentDb with
  | some c => (Except.ok c, driver)
  | none =>
    let res := connect (currentDescriptor driver)
    let d1 := ringNext driver
    match res with
    | Except.error e => (Except.error e, d1)
    | Except.ok c => (Except.ok c, { d1 with currentDb := some c })

/-- Embeds `(driver *GormRepositoryDriver) reset()` (part_006 lines 71-75). -/
def GormRepositoryDriver.reset (driver : GormRepositoryDriver Conn) :
    GormRepositoryDriver Conn :=
  { driver with currentDb := none }

/-- Embeds `isConnectionError` (part_006 lines 77-83). -/
def isConnectionError (errMsg : String) : Bool :=
  if hasPrefixStr errMsg "dial tcp " && hasSuffixStr errMsg ": connection refused"
  then true else false

/-- Embeds `(driver *GormRepositoryDriver) withDb(fn)` (part_006 lines 85-97),
generalised over the extra values the Go closure writes to captured
variables: `fn` returns its error together with a payload `A`, and `a0` is
the payload when `fn` never runs (connection acquisition failed).  On an
error from `fn` that `isConnectionError` classifies as connection-level,
`reset()` is called before the error is returned. -/
def withDbC (connect : String → Except String Conn) (fn : Conn → Option String × A)
    (a0 : A) (driver : GormRepositoryDriver Conn) :
    (Option String × A) × GormRepositoryDriver Conn :=
  match GormRepositoryDriver.db connect driver with
  | (Except.error e, d1) => ((some e, a0), d1)
  | (Except.ok c, d1) =>
    match fn c with
    | (some e, a) =>
      ((some e, a), if isConnectionError e then GormRepositoryDriver.reset d1 else d1)
    | (none, a) => ((none, a), d1)

/-- Specialises `withDbC` to `withDb` for a unit of work that only returns an error. -/
def withDb (connect : String → Except String Conn) (fn : Conn → Option String)
    (driver : GormRepositoryDriver Conn) :
    Option String × GormRepositoryDriver Conn :=
  let r := withDbC connect (fun c => (fn c, ())) () driver
  (r.1.1, r.2)

/-!  ## Transactions (src/unnamed/part_006 lines 120-141)

`db.Begin()`, `tx.Rollback()` and `tx.Commit()` are backend behaviour; we
model them as an oracle record per connection.  `Tx` is the transaction
handle type. -/

structure TxBackend (Tx : Type) where
  beginTx : Tx
  beginErr : Option String
  rollbackErr : Tx → Option String
  commitErr : Tx → Option String

/-- Observable outcome of a transaction body: the error the Go code
returns, whether `Rollback()` was invoked, and whether `Commit()`
succeeded. -/
structure TxReport where
  err : Option String
  rolledBack : Bool
  committed : Bool
deriving Repr, DecidableEq

/-- Run the `txFuncs` in order against the transaction, stopping at the
first error (the loop in part_006 lines 129-134). -/
def runTxFuncs {Tx : Type} (fns : List (Tx → Option String)) (tx : Tx) : Option String :=
  match fns with
  | [] => none
  | f :: rest =>
    match f tx with
    | some e => some e
    | none => runTxFuncs rest tx

/-- The body of `inTransaction` (part_006 lines 122-141) run under an
acquired connection: begin, run the functions, commit; on any failure roll
back and merge the primary error with the rollback error via
`errorlib.Merge`. -/
def inTransactionReport (B : TxBackend Tx) (fns : List (Tx → Option String)) : TxReport :=
  match B.beginErr with
  | some e =>
    { err := Merge [some e, B.rollbackErr B.beginTx], rolledBack := true, committed := false }
  | none =>
    match runTxFuncs fns B.beginTx with
    | some e =>
      { err := Merge [some e, B.rollbackErr B.beginTx], rolledBack := true, committed := false }
    | none =>
      match B.commitErr B.beginTx with
      | some e =>
        { err := Merge [some e, B.rollbackErr B.beginTx], rolledBack := true, committed := false }
      | none => { err := none, rolledBack := false, committed := true }

/-- Embeds `(driver *GormRepositoryDriver) inTransaction(txFuncs...)`:
the transaction body wrapped in `withDb`.  `mkB` gives the transaction
backend reached through a given connection. -/
def GormRepositoryDriver.inTransaction (connect : String → Except String Conn)
    (mkB : Conn → TxBackend Tx) (fns : List (Tx → Option String))
    (driver : GormRepositoryDriver Conn) :
    Option String × GormRepositoryDriver Conn :=
  withDb connect (fun c => (inTransactionReport (mkB c) fns).err) driver

/-!  ## Driver operations used by the claims (src/unnamed/part_006)

Record values passed to the variadic operations are modelled by `GoValue`,
which records the one property the code inspects via reflection: whether
the runtime kind of the value is a slice. -/

inductive GoKind where
  | slice
  | other
deriving Repr, DecidableEq

inductive GoValue where
  | slice (elems : List GoValue)
  | record (id : Int)

/-- Models `reflect.ValueOf(v).Kind()`, restricted to the slice test the code
performs. -/
def GoValue.kind : GoValue → GoKind
  | .slice _ => .slice
  | .record _ => .other

/-- The single transaction function `SaveMultiple` passes to
`inTransaction` (part_006 lines 155-162): save each value in order, abort
on the first error.  `saveRes v tx` is the backend's response to
`tx.Save(value).Error`. -/
def saveAllFn (saveRes : GoValue → Tx → Option String) (values : List GoValue)
    (tx : Tx) : Option String :=
  match values with
  | [] => none
  | v :: rest =>
    match saveRes v tx with
    | some e => some e
    | none => saveAllFn saveRes rest tx

/-- Embeds `SaveMultiple` (part_006 lines 151-163): zero values short-circuits to
a nil error before any connection or transaction work. -/
def GormRepositoryDriver.SaveMultiple (connect : String → Except String Conn)
    (mkB : Conn → TxBackend Tx) (saveRes : GoValue → Tx → Option String)
    (driver : GormRepositoryDriver Conn) (values : List GoValue) :
    Option String × GormRepositoryDriver Conn :=
  match values with
  | [] => (none, driver)
  | _ => GormRepositoryDriver.inTransaction connect mkB [saveAllFn saveRes values] driver

/-- The caller-usage error message of `DeleteMultiple` (part_006 line 217). -/
def dlmUsageMsg : String :=
  "gorm driver: dlm- invalid arguments to DeleteMultiple; did you forget the `...`?"

/-- The transaction function of `DeleteMultiple` (part_006 lines 221-228):
delete each value in order, abort on the first error. -/
def deleteAllFn (delRes : GoValue → Tx → Option String) (values : List GoValue)
    (tx : Tx) : Option String :=
  match values with
  | [] => none
  | v :: rest =>
    match delRes v tx with
    | some e => some e
    | none => deleteAllFn delRes rest tx

/-- The transactional tail of `DeleteMultiple` (part_006 lines 221-233):
run the deletes in one transaction and wrap any error with the `dlm-`
operation tag. -/
def dlmRun (connect : String → Except String Conn) (mkB : Conn → TxBackend Tx)
    (delRes : GoValue → Tx → Option String) (driver : GormRepositoryDriver Conn)
    (values : List GoValue) : Option String × GormRepositoryDriver Conn :=
  let r := GormRepositoryDriver.inTransaction connect mkB [deleteAllFn delRes values] driver
  match r.1 with
  | some e => (some ("gorm driver: dlm- " ++ e), r.2)
  | none => (none, r.2)

/-- Embeds `DeleteMultiple` (part_006 lines 209-234): zero values returns nil
immediately; exactly one value whose reflect kind is a slice returns the
caller-usage error immediately (guard against deleting whole tables);
otherwise the deletes run in one transaction. -/
def GormRepositoryDriver.DeleteMultiple (connect : String → Except String Conn)
    (mkB : Conn → TxBackend Tx) (delRes : GoValue → Tx → Option String)
    (driver : GormRepositoryDriver Conn) (values : List GoValue) :
    Option String × GormRepositoryDriver Conn :=
  match values with
  | [] => (none, driver)
  | [v] =>
    if v.kind = GoKind.slice then (some dlmUsageMsg, driver)
    else dlmRun connect mkB delRes driver [v]
  | _ => dlmRun connect mkB delRes driver values

/-- The `upd1-` error message of `UpdateSingle` (part_006 line 193),
`%v` of the `int64` row count rendered in decimal. -/
def upd1Msg (rowsAffected : Int) : String :=
  ("gorm driver: upd1- 1 row should have been affected but instead " ++
    toString rowsAffected) ++ " rows were affected"

/-- The transaction function of `UpdateSingle` (part_006 lines 187-197):
`updateRes tx` models `tx.Model(value).UpdateColumns(values)` as the pair
(`scope.Error`, `scope.RowsAffected`). -/
def UpdateSingleTxFn (updateRes : Tx → Option String × Int) (tx : Tx) : Option String :=
  match updateRes tx with
  | (some e, _) => some e
  | (none, n) => if n ≠ 1 then some (upd1Msg n) else none

/-- Embeds `UpdateSingle` (part_006 lines 186-198). -/
def GormRepositoryDriver.UpdateSingle (connect : String → Except String Conn)
    (mkB : Conn → TxBackend Tx) (updateRes : Tx → Option String × Int)
    (driver : GormRepositoryDriver Conn) :
    Option String × GormRepositoryDriver Conn :=
  GormRepositoryDriver.inTransaction connect mkB [UpdateSingleTxFn updateRes] driver

/-- The transaction report of `UpdateSingle`'s body, for stating what the
backend observed (rollback/commit). -/
def UpdateSingleReport (B : TxBackend Tx) (updateRes : Tx → Option String × Int) : TxReport :=
  inTransactionReport B [UpdateSingleTxFn updateRes]

/-!  ## GetOrCreate (src/unnamed/part_006 lines 236-249) -/

/-- A gorm error: the `gorm.ErrRecordNotFound` sentinel (compared by
identity in the Go code) or any other error with its message. -/
inductive GormErr where
  | recordNotFound
  | other (msg : String)
deriving Repr, DecidableEq

/-- The message of a gorm error (`gorm.ErrRecordNotFound.Error()` is
`"record not found"`). -/
def GormErr.message : GormErr → String
  | .recordNotFound => "record not found"
  | .other m => m

/-- The body of `GetOrCreate`'s unit of work (part_006 lines 237-243):
if the lookup error is exactly the record-not-found sentinel, attempt the
create, setting the captured `created` flag to true before the create's
error is examined. -/
def gocBody (firstE createE : Option GormErr) : Option String × Bool :=
  match firstE with
  | some GormErr.recordNotFound => (createE.map GormErr.message, true)
  | some e => (some (GormErr.message e), false)
  | none => (none, false)

/-- Embeds `GetOrCreate` (part_006 lines 236-249): `firstRes c` models
`db.Where(value).First(value).Error`, `createRes c` models
`db.Create(value).Error`; any error is wrapped with the `goc-` tag after
`withDb` returns.  Result (`created`, error) plus the new driver state. -/
def GormRepositoryDriver.GetOrCreate (connect : String → Except String Conn)
    (firstRes createRes : Conn → Option GormErr)
    (driver : GormRepositoryDriver Conn) :
    (Bool × Option String) × GormRepositoryDriver Conn :=
  let r := withDbC connect (fun c => gocBody (firstRes c) (createRes c)) false driver
  match r.1.1 with
  | some e => ((r.1.2, some ("gorm driver: goc- " ++ e)), r.2)
  | none => ((r.1.2, none), r.2)

/-!  ## Retry executor (src/unnamed/part_007 lines 12-23 and 88-155) -/

def FdbErrNotCommitted : String := "1020 - not_committed"

def FdbErrPastVersion : String := "1007 - past_version"

def FdbErrOnlineDdlInProgress : String := "Online DDL in progress for"

/-- Embeds `IsRetriableDbError` (part_007 lines 88-97): a non-nil error whose text
contains one of the three fixed transient markers. -/
def IsRetriableDbError (err : Option String) : Bool :=
  match err with
  | none => false
  | some str =>
    strContains str FdbErrNotCommitted || strContains str FdbErrPastVersion ||
      strContains str FdbErrOnlineDdlInProgress

/-- A `*gorm.DB` result value as the retry loop observes it: just its
`Error` field. -/
structure GormDB where
  error : Option String
deriving Repr, DecidableEq

/-- Models `fmt.Errorf("max allowed retries exceeded %v/%v: %v", attemptNumber,
FdbRetryLimit, res0.Error)` (part_007 line 135); `%v` of a nil error is
`"<nil>"`. -/
def maxRetriesMsg (attemptNumber : Nat) (limit : Int) (lastErr : Option String) : String :=
  ((("max allowed retries exceeded " ++ toString attemptNumber) ++ "/") ++
    toString limit ++ ": ") ++
    (match lastErr with | some s => s | none => "<nil>")

/-- The nil-result guard message at the retry-limit check (part_007 line 131). -/
def oopsNilResMsg (limit : Int) : String :=
  "oops, res0 is nil; is the retry limit > 0? If so, that's not allowed; FdbRetryLimit=" ++
    toString limit

/-- The nil-result guard message after calling `fn` (part_007 line 148). -/
def oopsNilFnMsg (limit : Int) : String :=
  "oops, res0 is nil; is your fn returning a nil *gorm.DB? If so, that's not allowed; FdbRetryLimit=" ++
    toString limit

/-- The loop of `DbFnWithRetry` (part_007 lines 122-155).  `fn n` is the
result of the n-th invocation of the unit of work (`none` models a nil
`*gorm.DB`); `attemptNumber` and `res0` are the loop variables; `calls`
counts invocations of `fn`; `fuel` bounds the number of loop iterations we
unfold (`none` = the loop did not finish within `fuel` iterations, which
can only happen while retriable errors keep the loop going). -/
def dbFnWithRetryGo (limit : Int) (fn : Nat → Option GormDB) :
    Nat → Nat → Option GormDB → Nat → Option (GormDB × Nat)
  | 0, _, _, _ => none
  | fuel + 1, attemptNumber, res0, calls =>
    if 0 < limit ∧ limit < (attemptNumber : Int) then
      match res0 with
      | none => some ({ error := some (oopsNilResMsg limit) }, calls)
      | some r =>
        some ({ r with error := some (maxRetriesMsg attemptNumber limit r.error) }, calls)
    else
      match fn attemptNumber with
      | some r =>
        if r.error.isSome && IsRetriableDbError r.error then
          dbFnWithRetryGo limit fn fuel (attemptNumber + 1) (some r) (calls + 1)
        else some (r, calls + 1)
      | none => some ({ error := some (oopsNilFnMsg limit) }, calls + 1)

/-- Embeds `DbFnWithRetry` (part_007 lines 122-155), with the process-wide
`FdbRetryLimit` passed as `limit` and instrumented to also return how many
times the unit of work was invoked. -/
def DbFnWithRetry (fuel : Nat) (limit : Int) (fn : Nat → Option GormDB) :
    Option (GormDB × Nat) :=
  dbFnWithRetryGo limit fn fuel 0 none 0

/-!  ## Raw-query scalar dispatch (src/unnamed/part_006 lines 450-509)

Each definition embeds one arm of the `switch result.(type)` in `Raw`.
The rows of a single-column result set are modelled as the list of their
(well-typed) column values; `rows.Next()`/`rows.Scan(&x)` on an exhausted
result set fails, which the `*bool`/`*int64`/`*string` arms hit when there
are no rows. -/

/-- The `*int` arm (part_006 lines 474-482): scan every row into `x`
(`var x int` starts at zero), then assign — the last row wins. -/
def rawIntCase (rows : List Int) : Except String Int :=
  Except.ok (rows.foldl (fun _ v => v) 0)

/-- The `*bool` arm (part_006 lines 465-472): one `rows.Next()` then one
scan — the first row wins. -/
def rawBoolCase (rows : List Bool) : Except String Bool :=
  match rows with
  | [] => Except.error "sql: Rows are closed"
  | v :: _ => Except.ok v

/-- The `*int64` arm (part_006 lines 484-491): first row wins. -/
def rawInt64Case (rows : List Int) : Except String Int :=
  match rows with
  | [] => Except.error "sql: Rows are closed"
  | v :: _ => Except.ok v

/-- The `*string` arm (part_006 lines 502-509): first row wins. -/
def rawStringCase (rows : List String) : Except String String :=
  match rows with
  | [] => Except.error "sql: Rows are closed"
  | v :: _ => Except.ok v

/-!  ## Raw-query single-mapping dispatch (src/unnamed/part_006 lines 859-905)

The `*map[string]X` arms are structurally identical for every value type
`X`, so they are embedded generically in the cell type `α`.  A Go map is
modelled as an association list: assignment replaces the value at an
existing key in place and appends a new key at the end, matching
insertion-order-independent map contents. -/

/-- Go map assignment `m[k] = v` on the association-list model. -/
def mapInsert (m : List (String × α)) (k : String) (v : α) : List (String × α) :=
  if m.any (fun p => p.1 = k) then
    m.map (fun p => if p.1 = k then (k, v) else p)
  else m ++ [(k, v)]

/-- One scanned row written into the mapping: `(*assign)[column] = values[i]`
for each column in order (part_006 lines 878-880). -/
def mapAssignAll (m : List (String × α)) (pairs : List (String × α)) :
    List (String × α) :=
  match pairs with
  | [] => m
  | p :: rest => mapAssignAll (mapInsert m p.1 p.2) rest

/-- The row loop of a `*map[string]X` arm: scan each row (a scan with a
column-count mismatch fails as `database/sql` does) and write it over the
mapping. -/
def mapRowsLoop (cols : List String) (m : List (String × α)) :
    List (List α) → Except String (List (String × α))
  | [] => Except.ok m
  | row :: rest =>
    if row.length = cols.length then
      mapRowsLoop cols (mapAssignAll m (cols.zip row)) rest
    else
      Except.error "sql: expected a different number of destination arguments in Scan"

/-- A `*map[string]X` arm of `Raw` (e.g. part_006 lines 859-881 for
`*map[string]string`): initialise the destination to an empty map when it
is nil, then fold every row into it, later rows overwriting earlier rows'
keys. -/
def rawMapStringCase (cols : List String) (rows : List (List α))
    (dest : Option (List (String × α))) : Except String (List (String × α)) :=
  mapRowsLoop cols (dest.getD []) rows

/-!  ## Helper lemmas -/

theorem mergeLoop_pos (errs : List (Option String)) :
    ∀ (buf : String) (n : Nat), 0 < n →
      mergeLoop errs buf n =
        (buf ++ commaTail (errs.filterMap id), n + (errs.filterMap id).length) := by
  induction errs with
  | nil => intro buf n _; simp [mergeLoop, commaTail]
  | cons x rest ih =>
    intro buf n hn
    cases x with
    | none => simpa [mergeLoop] using ih buf n hn
    | some e =>
      simp only [mergeLoop, if_pos hn, List.filterMap_cons, id]
      rw [ih ((buf ++ ", ") ++ e) (n + 1) (by omega)]
      refine Prod.ext ?_ ?_
      · simp [commaTail, String.append_assoc]
      · simp; omega

theorem joinComma_cons (a : String) (l : List String) :
    joinComma (a :: l) = a ++ commaTail l := by
  induction l generalizing a with
  | nil => simp [joinComma, commaTail]
  | cons b rest ih =>
    rw [joinComma, commaTail, ih b]
    simp [String.append_assoc]

theorem mergeLoop_zero (errs : List (Option String)) :
    mergeLoop errs "" 0 =
      (joinComma (errs.filterMap id), (errs.filterMap id).length) := by
  induction errs with
  | nil => simp [mergeLoop, joinComma]
  | cons x rest ih =>
    cases x with
    | none => simpa [mergeLoop] using ih
    | some e =>
      simp only [mergeLoop, List.filterMap_cons, id]
      rw [if_neg (by omega), Nat.zero_add]
      rw [mergeLoop_pos rest ("" ++ e) 1 (by omega), joinComma_cons]
      simp [String.empty_append]
      omega

theorem merge_pair_isSome (e : String) (x : Option String) :
    (Merge [some e, x]).isSome = true := by
  cases x <;> rfl

theorem withDbC_of_err {Conn A : Type} (connect : String → Except String Conn)
    (fn : Conn → Option String × A) (a0 : A) (driver : GormRepositoryDriver Conn)
    (e : String) (hdb : (GormRepositoryDriver.db connect driver).1 = Except.error e) :
    withDbC connect fn a0 driver = ((some e, a0), (GormRepositoryDriver.db connect driver).2) := by
  unfold withDbC
  rcases hpair : GormRepositoryDriver.db connect driver with ⟨r1, d1⟩
  rw [hpair] at hdb
  cases r1 with
  | error e2 => simp at hdb; subst hdb; rfl
  | ok c => simp at hdb

theorem withDbC_fst_of_ok {Conn A : Type} (connect : String → Except String Conn)
    (fn : Conn → Option String × A) (a0 : A) (driver : GormRepositoryDriver Conn)
    (c : Conn) (hdb : (GormRepositoryDriver.db connect driver).1 = Except.ok c) :
    (withDbC connect fn a0 driver).1 = fn c := by
  unfold withDbC
  rcases hpair : GormRepositoryDriver.db connect driver with ⟨r1, d1⟩
  rw [hpair] at hdb
  cases r1 with
  | error e2 => simp at hdb
  | ok c2 =>
    simp only [Except.ok.injEq] at hdb
    subst hdb
    rcases hfn : fn c2 with ⟨oe, a⟩
    cases oe <;> simp [hfn]

theorem withDbC_snd_of_ok_err {Conn A : Type} (connect : String → Except String Conn)
    (fn : Conn → Option String × A) (a0 : A) (driver : GormRepositoryDriver Conn)
    (c : Conn) (e : String) (a : A)
    (hdb : (GormRepositoryDriver.db connect driver).1 = Except.ok c)
    (hfn : fn c = (some e, a)) :
    (withDbC connect fn a0 driver).2 =
      if isConnectionError e then
        GormRepositoryDriver.reset (GormRepositoryDriver.db connect driver).2
      else (GormRepositoryDriver.db connect driver).2 := by
  unfold withDbC
  rcases hpair : GormRepositoryDriver.db connect driver with ⟨r1, d1⟩
  rw [hpair] at hdb
  cases r1 with
  | error e2 => simp at hdb
  | ok c2 =>
    simp only [Except.ok.injEq] at hdb
    subst hdb
    simp [hfn]

theorem withDb_fst_of_ok {Conn : Type} (connect : String → Except String Conn)
    (fn : Conn → Option String) (driver : GormRepositoryDriver Conn)
    (c : Conn) (hdb : (GormRepositoryDriver.db connect driver).1 = Except.ok c) :
    (withDb connect fn driver).1 = fn c := by
  unfold withDb
  simpa using congrArg Prod.fst
    (withDbC_fst_of_ok connect (fun c' => (fn c', ())) () driver c hdb)

theorem withDb_fst_of_err {Conn : Type} (connect : String → Except String Conn)
    (fn : Conn → Option String) (driver : GormRepositoryDriver Conn)
    (e : String) (hdb : (GormRepositoryDriver.db connect driver).1 = Except.error e) :
    (withDb connect fn driver).1 = some e := by
  unfold withDb
  rw [withDbC_of_err connect (fun c' => (fn c', ())) () driver e hdb]

theorem withDb_snd_of_ok_err {Conn : Type} (connect : String → Except String Conn)
    (fn : Conn → Option String) (driver : GormRepositoryDriver Conn)
    (c : Conn) (e : String)
    (hdb : (GormRepositoryDriver.db connect driver).1 = Except.ok c)
    (hfn : fn c = some e) :
    (withDb connect fn driver).2 =
      if isConnectionError e then
        GormRepositoryDriver.reset (GormRepositoryDriver.db connect driver).2
      else (GormRepositoryDriver.db connect driver).2 := by
  unfold withDb
  exact withDbC_snd_of_ok_err connect (fun c' => (fn c', ())) () driver c e () hdb
    (by simp [hfn])

theorem dbFnWithRetryGo_all_retriable (K : Nat) (fn : Nat → GormDB) (hK : 0 < K)
    (hret : ∀ n, (((fn n).error).isSome && IsRetriableDbError ((fn n).error)) = true) :
    ∀ (d j calls : Nat), j + d = K + 1 → 1 ≤ j →
      dbFnWithRetryGo (K : Int) (fun n => some (fn n)) (d + 1) j (some (fn (j - 1))) calls =
        some ({ error := some (maxRetriesMsg (K + 1) (K : Int) ((fn K).error)) }, calls + d) := by
  intro d
  induction d with
  | zero =>
    intro j calls hj _
    have hjK : j = K + 1 := by omega
    subst hjK
    rw [dbFnWithRetryGo]
    rw [if_pos (by constructor <;> [exact_mod_cast hK; exact_mod_cast (by omega : (K : Int) < (K + 1 : Nat))])]
    simp
  | succ d ih =>
    intro j calls hj hj1
    have hjK : j ≤ K := by omega
    rw [dbFnWithRetryGo]
    rw [if_neg (by omega)]
    simp only
    rw [if_pos (hret j)]
    have h2 := ih (j + 1) (calls + 1) (by omega) (by omega)
    simp only [Nat.add_sub_cancel] at h2
    rw [h2]
    congr 2
    omega

theorem foldl_keep_last : ∀ (l : List Int) (h : l ≠ []) (d : Int),
    l.foldl (fun _ v => v) d = l.getLast h := by
  intro l
  induction l with
  | nil => intro h; exact absurd rfl h
  | cons a l ih =>
    intro _ d
    cases l with
    | nil => rfl
    | cons b l2 =>
      rw [List.foldl_cons, List.getLast_cons (show (b :: l2) ≠ [] by simp)]
      exact ih (by simp) a

theorem mapInsert_cons_ne (c k : String) (w v : α) (m : List (String × α)) (h : k ≠ c) :
    mapInsert ((c, w) :: m) k v = (c, w) :: mapInsert m k v := by
  unfold mapInsert
  have hck : ¬(c = k) := fun hh => h hh.symm
  cases hm : m.any (fun p => decide (p.1 = k)) <;> simp [hm, hck]

theorem mapAssignAll_cons_notmem (c : String) (w : α) :
    ∀ (pairs m : List (String × α)), (∀ p ∈ pairs, p.1 ≠ c) →
      mapAssignAll ((c, w) :: m) pairs = (c, w) :: mapAssignAll m pairs := by
  intro pairs
  induction pairs with
  | nil => intro m _; rfl
  | cons p rest ih =>
    intro m h
    rw [mapAssignAll, mapInsert_cons_ne c p.1 w p.2 m (h p (by simp)), mapAssignAll]
    exact ih (mapInsert m p.1 p.2) (fun q hq => h q (by simp [hq]))

theorem map_keep_of_no_key (c : String) (v : α) :
    ∀ (m : List (String × α)), (∀ p ∈ m, p.1 ≠ c) →
      m.map (fun p => if p.1 = c then (c, v) else p) = m := by
  intro m
  induction m with
  | nil => intro _; rfl
  | cons q rest ih =>
    intro h
    simp only [List.map_cons, if_neg (h q (by simp)), List.cons.injEq, true_and]
    exact ih (fun p hp => h p (by simp [hp]))

theorem mapInsert_head_replace (c : String) (v w : α) (m : List (String × α))
    (h : ∀ p ∈ m, p.1 ≠ c) :
    mapInsert ((c, w) :: m) c v = (c, v) :: m := by
  unfold mapInsert
  rw [if_pos (by simp)]
  have h1 : ((c, w) :: m).map (fun p => if p.1 = c then (c, v) else p)
      = (c, v) :: m.map (fun p => if p.1 = c then (c, v) else p) := by simp
  rw [h1, map_keep_of_no_key c v m h]

theorem mapAssignAll_fresh : ∀ (cols : List String) (row : List α), cols.Nodup →
    row.length = cols.length → mapAssignAll [] (cols.zip row) = cols.zip row := by
  intro cols
  induction cols with
  | nil => intro row _ _; simp [mapAssignAll]
  | cons c cs ih =>
    intro row hnd hl
    cases row with
    | nil => simp at hl
    | cons v vs =>
      have hkeys : ∀ p ∈ cs.zip vs, p.1 ≠ c := fun p hp => by
        have hm := List.of_mem_zip (by exact (Prod.mk.eta ▸ hp : (p.1, p.2) ∈ cs.zip vs))
        intro hc
        exact (List.nodup_cons.mp hnd).1 (hc ▸ hm.1)
      rw [show (c :: cs).zip (v :: vs) = (c, v) :: cs.zip vs from rfl]
      show mapAssignAll [(c, v)] (cs.zip vs) = (c, v) :: cs.zip vs
      rw [mapAssignAll_cons_notmem c v (cs.zip vs) [] hkeys]
      rw [ih vs (List.nodup_cons.mp hnd).2 (by simpa using hl)]

theorem mapAssignAll_overwrite : ∀ (cols : List String) (row row' : List α), cols.Nodup →
    row.length = cols.length → row'.length = cols.length →
    mapAssignAll (cols.zip row) (cols.zip row') = cols.zip row' := by
  intro cols
  induction cols with
  | nil => intro row row' _ _ _; simp [mapAssignAll]
  | cons c cs ih =>
    intro row row' hnd hl hl'
    cases row with
    | nil => simp at hl
    | cons v vs =>
      cases row' with
      | nil => simp at hl'
      | cons v' vs' =>
        have hkeys : ∀ p ∈ cs.zip vs, p.1 ≠ c := fun p hp => by
          have hm := List.of_mem_zip (by exact (Prod.mk.eta ▸ hp : (p.1, p.2) ∈ cs.zip vs))
          intro hc
          exact (List.nodup_cons.mp hnd).1 (hc ▸ hm.1)
        have hkeys' : ∀ p ∈ cs.zip vs', p.1 ≠ c := fun p hp => by
          have hm := List.of_mem_zip (by exact (Prod.mk.eta ▸ hp : (p.1, p.2) ∈ cs.zip vs'))
          intro hc
          exact (List.nodup_cons.mp hnd).1 (hc ▸ hm.1)
        rw [show (c :: cs).zip (v :: vs) = (c, v) :: cs.zip vs from rfl]
        rw [show (c :: cs).zip (v' :: vs') = (c, v') :: cs.zip vs' from rfl]
        show mapAssignAll (mapInsert ((c, v) :: cs.zip vs) c v') (cs.zip vs')
          = (c, v') :: cs.zip vs'
        rw [mapInsert_head_replace c v' v (cs.zip vs) hkeys]
        rw [mapAssignAll_cons_notmem c v' (cs.zip vs') (cs.zip vs) hkeys']
        rw [ih vs vs' (List.nodup_cons.mp hnd).2 (by simpa using hl) (by simpa using hl')]

theorem mapRowsLoop_last (cols : List String) (hnd : cols.Nodup) :
    ∀ (rows : List (List α)) (row : List α), row.length = cols.length →
      (∀ r ∈ rows, r.length = cols.length) →
      mapRowsLoop cols (cols.zip row) rows =
        Except.ok (cols.zip ((row :: rows).getLast (by simp))) := by
  intro rows
  induction rows with
  | nil => intro row _ _; simp [mapRowsLoop]
  | cons r rest ih =>
    intro row hl hall
    rw [mapRowsLoop, if_pos (hall r (by simp))]
    rw [mapAssignAll_overwrite cols row r hnd hl (hall r (by simp))]
    rw [ih r (hall r (by simp)) (fun q hq => hall q (by simp [hq]))]
    rw [List.getLast_cons (show (r :: rest) ≠ [] by simp)]

/-!  ## The claims -/

/-- C3: merging no errors or only nils yields no error; merging exactly one
non-nil error yields its message unchanged; merging N ≥ 2 non-nil errors
(nils ignored) yields the message `"<N> errors: <msg1>, <msg2>, ..."` with
the non-nil messages in order. -/
theorem claim_C3_merge_shape (errs : List (Option String)) :
    (errs.filterMap id = [] → Merge errs = none)
    ∧ (∀ e : String, errs.filterMap id = [e] → Merge errs = some e)
    ∧ (∀ msgs : List String, errs.filterMap id = msgs → 2 ≤ msgs.length →
        Merge errs = some ((toString msgs.length ++ " errors: ") ++ joinComma msgs)) := by
  match errs with
  | [] => exact ⟨fun _ => rfl, fun e he => by simp at he, fun msgs hm h2 => by
      simp at hm; subst hm; simp at h2⟩
  | [x] =>
    cases x with
    | none =>
      refine ⟨fun _ => rfl, fun e he => by simp at he, fun msgs hm h2 => ?_⟩
      simp at hm; subst hm; simp at h2
    | some e =>
      refine ⟨fun h => by simp at h, fun e2 he2 => ?_, fun msgs hm h2 => ?_⟩
      · simp at he2; subst he2; rfl
      · simp at hm; subst hm; simp at h2
  | a :: b :: rest =>
    have hM : Merge (a :: b :: rest) =
        (if ((a :: b :: rest).filterMap id).length = 0 then none
         else if ((a :: b :: rest).filterMap id).length = 1 then
           some (joinComma ((a :: b :: rest).filterMap id))
         else some ((toString ((a :: b :: rest).filterMap id).length ++ " errors: ")
           ++ joinComma ((a :: b :: rest).filterMap id))) := by
      show (let r := mergeLoop (a :: b :: rest) "" 0
            if r.2 = 0 then none
            else if r.2 = 1 then some r.1
            else some ((toString r.2 ++ " errors: ") ++ r.1)) = _
      rw [mergeLoop_zero]
    refine ⟨fun h => ?_, fun e he => ?_, fun msgs hm h2 => ?_⟩
    · rw [hM, h]; rfl
    · rw [hM, he]; rfl
    · rw [hM, hm, if_neg (by omega), if_neg (by omega)]

/-- C3 witness: three errors, one nil — the merged message carries the
count 2 and both messages in order. -/
theorem claim_C3_merge_shape_witness :
    Merge [some "a", none, some "b"] = some "2 errors: a, b" := by
  have h := (claim_C3_merge_shape [some "a", none, some "b"]).2.2 ["a", "b"] rfl (by decide)
  rw [h]; decide

/-- C1: an error surfaced by a unit of work is classified connection-level
iff its text has prefix `"dial tcp "` and suffix `": connection refused"`
(the dial-refused example is, the role example is not), and when the unit
of work surfaces a connection-level error `withDb` resets the live
connection to nil before returning the error. -/
theorem claim_C1_connection_error :
    (∀ msg : String, isConnectionError msg = true ↔
      ("dial tcp ".data <+: msg.data ∧ ": connection refused".data <:+ msg.data))
    ∧ isConnectionError "dial tcp 10.0.0.1:5432: connection refused" = true
    ∧ isConnectionError "role \"x\" does not exist" = false
    ∧ (∀ (Conn : Type) (connect : String → Except String Conn)
        (fn : Conn → Option String) (driver : GormRepositoryDriver Conn)
        (c : Conn) (e : String),
        (GormRepositoryDriver.db connect driver).1 = Except.ok c →
        fn c = some e →
        ((withDb connect fn driver).1 = some e
         ∧ (isConnectionError e = true → (withDb connect fn driver).2.currentDb = none))) := by
  refine ⟨?_, by decide, by decide, ?_⟩
  · intro msg
    simp [isConnectionError, hasPrefixStr, hasSuffixStr,
      List.isPrefixOf_iff_prefix, List.isSuffixOf_iff_suffix]
  · intro Conn connect fn driver c e hdb hfn
    refine ⟨by rw [withDb_fst_of_ok connect fn driver c hdb, hfn], fun hce => ?_⟩
    rw [withDb_snd_of_ok_err connect fn driver c e hdb hfn, if_pos hce]
    rfl

/-- C1 witness: a unit of work failing with the dial-refused message makes
`withDb` return that error and clear the cached connection. -/
theorem claim_C1_connection_error_witness :
    ((withDb (fun _ => Except.ok 0)
        (fun _ => some "dial tcp 10.0.0.1:5432: connection refused")
        (NewGormRepositoryDriver Nat ["pg://primary"])).1 =
      some "dial tcp 10.0.0.1:5432: connection refused")
    ∧ ((withDb (fun _ => Except.ok 0)
        (fun _ => some "dial tcp 10.0.0.1:5432: connection refused")
        (NewGormRepositoryDriver Nat ["pg://primary"])).2.currentDb = none) := by
  have h := claim_C1_connection_error.2.2.2 Nat (fun _ => Except.ok 0)
    (fun _ => some "dial tcp 10.0.0.1:5432: connection refused")
    (NewGormRepositoryDriver Nat ["pg://primary"]) 0
    "dial tcp 10.0.0.1:5432: connection refused" rfl rfl
  exact ⟨h.1, h.2 (by decide)⟩

/-- C6: an acquire that finds no live connection attempts the descriptor
at the current cursor (and only that descriptor), and advances the cursor
exactly one position whether the connect succeeds or fails. -/
theorem claim_C6_round_robin (Conn : Type) (connect : String → Except String Conn)
    (driver : GormRepositoryDriver Conn) (h1 : driver.currentDb = none)
    (h2 : driver.connectionStrings ≠ []) :
    ((GormRepositoryDriver.db connect driver).2.cursor =
        (driver.cursor + 1) % driver.connectionStrings.length)
    ∧ (∀ e, connect (currentDescriptor driver) = Except.error e →
        ((GormRepositoryDriver.db connect driver).1 = Except.error e
         ∧ (GormRepositoryDriver.db connect driver).2.currentDb = none))
    ∧ (∀ c, connect (currentDescriptor driver) = Except.ok c →
        ((GormRepositoryDriver.db connect driver).1 = Except.ok c
         ∧ (GormRepositoryDriver.db connect driver).2.currentDb = some c))
    ∧ (∀ connect2 : String → Except String Conn,
        connect2 (currentDescriptor driver) = connect (currentDescriptor driver) →
        GormRepositoryDriver.db connect2 driver = GormRepositoryDriver.db connect driver) := by
  refine ⟨?_, ?_, ?_, ?_⟩
  · cases hc : connect (currentDescriptor driver) <;>
      simp [GormRepositoryDriver.db, h1, hc, ringNext]
  · intro e he; simp [GormRepositoryDriver.db, h1, he, ringNext]
  · intro c hc; simp [GormRepositoryDriver.db, h1, hc, ringNext]
  · intro connect2 heq; simp [GormRepositoryDriver.db, h1, heq]

/-- C6 witness: with two descriptors and a failing connect, the acquire
returns the connect error and still advances the cursor from 0 to 1. -/
theorem claim_C6_round_robin_witness :
    ((GormRepositoryDriver.db (fun _ => Except.error "boom")
        (NewGormRepositoryDriver Nat ["a", "b"])).2.cursor = 1)
    ∧ ((GormRepositoryDriver.db (fun _ => Except.error "boom")
        (NewGormRepositoryDriver Nat ["a", "b"])).1 = Except.error "boom") := by
  have h := claim_C6_round_robin Nat (fun _ => Except.error "boom")
    (NewGormRepositoryDriver Nat ["a", "b"]) rfl (by decide)
  exact ⟨by simpa using h.1, (h.2.1 "boom" rfl).1⟩

/-- C4: `DeleteMultiple` called with exactly one argument whose runtime
kind is a slice returns the caller-usage error immediately — for any slice
contents, any backend behaviour, and with the driver state (live
connection and cursor) untouched. -/
theorem claim_C4_delete_multiple_guard (Conn Tx : Type)
    (connect : String → Except String Conn) (mkB : Conn → TxBackend Tx)
    (delRes : GoValue → Tx → Option String) (driver : GormRepositoryDriver Conn)
    (elems : List GoValue) :
    GormRepositoryDriver.DeleteMultiple connect mkB delRes driver [GoValue.slice elems] =
      (some dlmUsageMsg, driver) := by
  simp [GormRepositoryDriver.DeleteMultiple, GoValue.kind]

/-- C10: `SaveMultiple` and `DeleteMultiple` with zero arguments return a
nil error immediately, for any backend behaviour, leaving the driver state
(live connection handle and rotation cursor) unchanged. -/
theorem claim_C10_empty_noop (Conn Tx : Type)
    (connect : String → Except String Conn) (mkB : Conn → TxBackend Tx)
    (saveRes delRes : GoValue → Tx → Option String)
    (driver : GormRepositoryDriver Conn) :
    GormRepositoryDriver.SaveMultiple connect mkB saveRes driver [] = (none, driver)
    ∧ GormRepositoryDriver.DeleteMultiple connect mkB delRes driver [] = (none, driver) :=
  ⟨rfl, rfl⟩

/-- C7: when the column update reports no error but a row count different
from one, `UpdateSingle` returns an error and the transaction is rolled
back; and `UpdateSingle` succeeds only when the update affected exactly
one row. -/
theorem claim_C7_update_single (Conn Tx : Type)
    (connect : String → Except String Conn) (mkB : Conn → TxBackend Tx)
    (updateRes : Tx → Option String × Int) (driver : GormRepositoryDriver Conn) :
    (∀ (c : Conn) (n : Int),
        (GormRepositoryDriver.db connect driver).1 = Except.ok c →
        updateRes (mkB c).beginTx = (none, n) → n ≠ 1 →
        ((GormRepositoryDriver.UpdateSingle connect mkB updateRes driver).1.isSome = true
         ∧ (UpdateSingleReport (mkB c) updateRes).rolledBack = true))
    ∧ ((GormRepositoryDriver.UpdateSingle connect mkB updateRes driver).1 = none →
        ∃ c, (GormRepositoryDriver.db connect driver).1 = Except.ok c
          ∧ updateRes (mkB c).beginTx = (none, 1)) := by
  constructor
  · intro c n hdb hupd hne
    have hfst : (GormRepositoryDriver.UpdateSingle connect mkB updateRes driver).1 =
        (inTransactionReport (mkB c) [UpdateSingleTxFn updateRes]).err := by
      unfold GormRepositoryDriver.UpdateSingle GormRepositoryDriver.inTransaction
      exact withDb_fst_of_ok connect _ driver c hdb
    have htx : runTxFuncs [UpdateSingleTxFn updateRes] (mkB c).beginTx =
        some (upd1Msg n) := by
      simp [runTxFuncs, UpdateSingleTxFn, hupd, hne]
    constructor
    · rw [hfst]
      cases hbe : (mkB c).beginErr with
      | some e => simp [inTransactionReport, hbe, merge_pair_isSome]
      | none => simp [inTransactionReport, hbe, htx, merge_pair_isSome]
    · unfold UpdateSingleReport inTransactionReport
      cases hbe : (mkB c).beginErr with
      | some e => simp
      | none => simp [htx]
  · intro hnone
    cases hdb : (GormRepositoryDriver.db connect driver).1 with
    | error e =>
      have hfst : (GormRepositoryDriver.UpdateSingle connect mkB updateRes driver).1 =
          some e := by
        unfold GormRepositoryDriver.UpdateSingle GormRepositoryDriver.inTransaction
        exact withDb_fst_of_err connect _ driver e hdb
      rw [hnone] at hfst
      exact absurd hfst (by simp)
    | ok c =>
      have hfst : (GormRepositoryDriver.UpdateSingle connect mkB updateRes driver).1 =
          (inTransactionReport (mkB c) [UpdateSingleTxFn updateRes]).err := by
        unfold GormRepositoryDriver.UpdateSingle GormRepositoryDriver.inTransaction
        exact withDb_fst_of_ok connect _ driver c hdb
      rw [hfst] at hnone
      refine ⟨c, rfl, ?_⟩
      unfold inTransactionReport at hnone
      cases hbe : (mkB c).beginErr with
      | some e =>
        rw [hbe] at hnone
        have hs := merge_pair_isSome e ((mkB c).rollbackErr (mkB c).beginTx)
        simp only at hnone
        rw [hnone] at hs
        simp at hs
      | none =>
        rw [hbe] at hnone
        simp only at hnone
        cases htx : runTxFuncs [UpdateSingleTxFn updateRes] (mkB c).beginTx with
        | some e =>
          rw [htx] at hnone
          have hs := merge_pair_isSome e ((mkB c).rollbackErr (mkB c).beginTx)
          simp only at hnone
          rw [hnone] at hs
          simp at hs
        | none =>
          have hfn : UpdateSingleTxFn updateRes (mkB c).beginTx = none := by
            by_contra hc
            rcases Option.ne_none_iff_exists'.mp hc with ⟨e, he⟩
            simp [runTxFuncs, he] at htx
          rcases hup : updateRes (mkB c).beginTx with ⟨oe, n⟩
          cases oe with
          | some e2 => simp [UpdateSingleTxFn, hup] at hfn
          | none =>
            by_cases hn : n = 1
            · subst hn; rfl
            · simp [UpdateSingleTxFn, hup, hn] at hfn

/-- C7 witness: an update matching zero rows makes `UpdateSingle` return
an error and the transaction roll back. -/
theorem claim_C7_update_single_witness :
    ((GormRepositoryDriver.UpdateSingle (fun _ => Except.ok 0)
        (fun _ => TxBackend.mk 0 none (fun _ => none) (fun _ => none))
        (fun _ => (none, 0)) (NewGormRepositoryDriver Nat ["pg"])).1.isSome = true)
    ∧ ((UpdateSingleReport (TxBackend.mk (0 : Nat) none (fun _ => none) (fun _ => none))
        (fun _ => (none, 0))).rolledBack = true) :=
  (claim_C7_update_single Nat Nat (fun _ => Except.ok 0)
    (fun _ => TxBackend.mk 0 none (fun _ => none) (fun _ => none))
    (fun _ => (none, 0)) (NewGormRepositoryDriver Nat ["pg"])).1 0 0 rfl rfl (by decide)

/-- C9: when the lookup reports record-not-found and the subsequent create
fails, `GetOrCreate` returns `created = true` together with the
`goc-`-tagged create error — the flag is set on attempting the create and
is not reset on failure. -/
theorem claim_C9_get_or_create_flag (Conn : Type)
    (connect : String → Except String Conn)
    (firstRes createRes : Conn → Option GormErr)
    (driver : GormRepositoryDriver Conn) (c : Conn) (e : GormErr)
    (hdb : (GormRepositoryDriver.db connect driver).1 = Except.ok c)
    (hfirst : firstRes c = some GormErr.recordNotFound)
    (hcreate : createRes c = some e) :
    (GormRepositoryDriver.GetOrCreate connect firstRes createRes driver).1 =
      (true, some ("gorm driver: goc- " ++ GormErr.message e)) := by
  have h1 : (withDbC connect (fun c' => gocBody (firstRes c') (createRes c')) false driver).1
      = gocBody (firstRes c) (createRes c) :=
    withDbC_fst_of_ok connect _ false driver c hdb
  unfold GormRepositoryDriver.GetOrCreate
  simp only [h1]
  simp [gocBody, hfirst, hcreate]

/-- C9 witness: lookup misses, create fails with "boom" — the call reports
`created = true` and the wrapped create error. -/
theorem claim_C9_get_or_create_flag_witness :
    (GormRepositoryDriver.GetOrCreate (fun _ => Except.ok 0)
        (fun _ => some GormErr.recordNotFound)
        (fun _ => some (GormErr.other "boom"))
        (NewGormRepositoryDriver Nat ["pg"])).1 =
      (true, some "gorm driver: goc- boom") := by
  have h := claim_C9_get_or_create_flag Nat (fun _ => Except.ok 0)
    (fun _ => some GormErr.recordNotFound) (fun _ => some (GormErr.other "boom"))
    (NewGormRepositoryDriver Nat ["pg"]) 0 (GormErr.other "boom") rfl rfl rfl
  exact h

/-- C2: with a configured retry limit `K > 0` and a unit of work that
always returns a retriable data-layer error, `DbFnWithRetry` invokes the
unit of work exactly `K + 1` times and then returns the fatal error built
from the exceeded limit and the last observed error. -/
theorem claim_C2_retry_cap (K : Nat) (fn : Nat → GormDB) (hK : 0 < K)
    (hret : ∀ n, ∃ e, (fn n).error = some e ∧ IsRetriableDbError (some e) = true) :
    DbFnWithRetry (K + 2) (K : Int) (fun n => some (fn n)) =
      some ({ error := some (maxRetriesMsg (K + 1) (K : Int) ((fn K).error)) }, K + 1) := by
  have hret' : ∀ n, (((fn n).error).isSome && IsRetriableDbError ((fn n).error)) = true := by
    intro n
    obtain ⟨e, he, hr⟩ := hret n
    rw [he]
    simp [hr]
  unfold DbFnWithRetry
  rw [show K + 2 = (K + 1) + 1 from rfl, dbFnWithRetryGo]
  rw [if_neg (by omega)]
  simp only
  rw [if_pos (hret' 0)]
  have h := dbFnWithRetryGo_all_retriable K fn hK hret' K 1 1 (by omega) (by omega)
  rw [show (1 : Nat) - 1 = 0 from rfl] at h
  rw [h]
  congr 1
  congr 1
  omega

/-- C2 witness: with limit 1 and a unit of work that always fails with the
not-committed marker, the work runs exactly 2 times and the fatal
max-retries error wraps the limit and the last error. -/
theorem claim_C2_retry_cap_witness :
    DbFnWithRetry 3 (1 : Int) (fun _ => some { error := some FdbErrNotCommitted }) =
      some ({ error := some (maxRetriesMsg 2 (1 : Int) (some FdbErrNotCommitted)) }, 2) := by
  have h := claim_C2_retry_cap 1 (fun _ => { error := some FdbErrNotCommitted })
    (by decide) (fun n => ⟨FdbErrNotCommitted, rfl, by decide⟩)
  simpa using h

/-- C5: for a scalar raw-query destination and a result set with at least
one row, the `*int` arm assigns the last row's value while the `*bool`,
`*int64` and `*string` arms assign the first row's value. -/
theorem claim_C5_scalar_rows (ri : List Int) (rb : List Bool) (rs : List String)
    (hi : ri ≠ []) (hb : rb ≠ []) (hs : rs ≠ []) :
    rawIntCase ri = Except.ok (ri.getLast hi)
    ∧ rawBoolCase rb = Except.ok (rb.head hb)
    ∧ rawInt64Case ri = Except.ok (ri.head hi)
    ∧ rawStringCase rs = Except.ok (rs.head hs) := by
  refine ⟨?_, ?_, ?_, ?_⟩
  · unfold rawIntCase
    rw [foldl_keep_last ri hi 0]
  · cases rb with
    | nil => exact absurd rfl hb
    | cons v t => rfl
  · cases ri with
    | nil => exact absurd rfl hi
    | cons v t => rfl
  · cases rs with
    | nil => exact absurd rfl hs
    | cons v t => rfl

/-- C5 witness: on the two-row result sets `[3, 7]`, `[true, false]` and
`["a", "b"]` the int arm keeps 7 (last) while the others keep the first
value. -/
theorem claim_C5_scalar_rows_witness :
    rawIntCase [3, 7] = Except.ok 7
    ∧ rawBoolCase [true, false] = Except.ok true
    ∧ rawInt64Case [3, 7] = Except.ok 3
    ∧ rawStringCase ["a", "b"] = Except.ok "a" := by
  have h := claim_C5_scalar_rows [3, 7] [true, false] ["a", "b"]
    (by decide) (by decide) (by decide)
  simpa using h

/-- C8 counterexample: a successful Raw call over columns
`id, name, home_planet` whose result has zero rows leaves the mapping
empty — it does not contain one entry per result column. -/
theorem claim_C8_counterexample :
    rawMapStringCase ["id", "name", "home_planet"] ([] : List (List String)) none =
      Except.ok []
    ∧ ([] : List (String × String)).length ≠ ["id", "name", "home_planet"].length :=
  ⟨rfl, by decide⟩

/-- C8 (amended): for a single string-keyed mapping destination that
starts nil/empty, a successful Raw call whose result has pairwise-distinct
column names, at least one row, and full rows, produces exactly the
mapping of the column names zipped with the last row — one entry per
column, keyed by column name, later rows overwriting earlier ones. -/
theorem claim_C8_map_last_row (α : Type) (cols : List String) (rows : List (List α))
    (h1 : cols.Nodup) (h2 : rows ≠ []) (h3 : ∀ r ∈ rows, r.length = cols.length) :
    rawMapStringCase cols rows none = Except.ok (cols.zip (rows.getLast h2))
    ∧ (cols.zip (rows.getLast h2)).map Prod.fst = cols
    ∧ (cols.zip (rows.getLast h2)).length = cols.length := by
  have hlast : (rows.getLast h2).length = cols.length :=
    h3 (rows.getLast h2) (List.getLast_mem h2)
  refine ⟨?_, ?_, ?_⟩
  · obtain ⟨row, rest, rfl⟩ := List.exists_cons_of_ne_nil h2
    unfold rawMapStringCase
    show mapRowsLoop cols [] (row :: rest) = _
    rw [mapRowsLoop, if_pos (h3 row (by simp))]
    rw [show mapAssignAll ([] : List (String × α)) (cols.zip row) =
      mapAssignAll [] (cols.zip row) from rfl]
    rw [mapAssignAll_fresh cols row h1 (h3 row (by simp))]
    exact mapRowsLoop_last cols h1 rest row (h3 row (by simp))
      (fun q hq => h3 q (by simp [hq]))
  · exact List.map_fst_zip cols (rows.getLast h2) (by omega)
  · rw [List.length_zip, hlast]
    omega

/-- C8 witness (amended claim): querying `id, name, home_planet` for one
row yields a size-3 mapping with exactly those keys and that row's
values. -/
theorem claim_C8_map_last_row_witness :
    rawMapStringCase ["id", "name", "home_planet"] [["1", "Luke", "Tatooine"]] none =
      Except.ok [("id", "1"), ("name", "Luke"), ("home_planet", "Tatooine")] := by
  have h := (claim_C8_map_last_row String ["id", "name", "home_planet"]
    [["1", "Luke", "Tatooine"]] (by decide) (by decide) (by decide)).1
  simpa using h
